import Mathlib

/-!
Shallow embedding of `abstract.shorter.py`, a batch extractor that scans a
directory for `*.json` files, parses each one, extracts `policyTitle`,
`treatments` and `indications`, strips the `keywords`/`codes`/`id` fields
from each treatment/indication entry, renders one compact summary line per
successfully processed file, and writes the collected lines to
`policies_compact.txt`.

Python values parsed from JSON are modelled by the inductive `Json`; Python
dictionaries become association lists with unique keys (JSON objects parsed
by `json.load` have unique keys).  Python exceptions raised during per-file
processing become `Except PyError`; the script catches them all per file
(`except Exception`) and skips the file.  Numeric JSON literals are modelled
as integers; no claim involves floating point.
-/

set_option autoImplicit false

/-- A parsed JSON value, as produced by Python's `json.load`.  Objects keep
their fields in order with unique keys. -/
inductive Json where
  | obj : List (String × Json) → Json
  | arr : List Json → Json
  | str : String → Json
  | num : Int → Json
  | bool : Bool → Json
  | null : Json

/-- A single-quote character, used when rendering Python `repr` of strings. -/
def squote : String := String.mk [Char.ofNat 39]

mutual

/-- Python `repr` of a parsed JSON value (used by `str` on lists/dicts).
String quoting is the common single-quote form. -/
def pyRepr : Json → String
  | Json.obj fs => "\x7b" ++ pyReprFields fs ++ "\x7d"
  | Json.arr xs => "[" ++ pyReprElems xs ++ "]"
  | Json.str s => squote ++ s ++ squote
  | Json.num n => toString n
  | Json.bool true => "True"
  | Json.bool false => "False"
  | Json.null => "None"

/-- Rendering of the field list of a dict for `pyRepr`. -/
def pyReprFields : List (String × Json) → String
  | [] => ""
  | [(k, v)] => squote ++ k ++ squote ++ ": " ++ pyRepr v
  | (k, v) :: rest => squote ++ k ++ squote ++ ": " ++ pyRepr v ++ ", " ++ pyReprFields rest

/-- Rendering of the element list of a list for `pyRepr`. -/
def pyReprElems : List Json → String
  | [] => ""
  | [v] => pyRepr v
  | v :: rest => pyRepr v ++ ", " ++ pyReprElems rest

end

/-- Python `str` of a parsed JSON value, as used by f-string interpolation
(`f"... {title} ..."`). -/
def pyStr : Json → String
  | Json.str s => s
  | Json.num n => toString n
  | Json.bool true => "True"
  | Json.bool false => "False"
  | Json.null => "None"
  | v => pyRepr v

/-- Whether a value is a Python dict (`isinstance(x, dict)`). -/
def Json.isObj : Json → Bool
  | Json.obj _ => true
  | _ => false

/-- Whether a value is a Python list (`isinstance(x, list)`). -/
def Json.isArr : Json → Bool
  | Json.arr _ => true
  | _ => false

/-- First binding of a key in a dict's field list (Python dict lookup;
keys are unique in a dict). -/
def lookupField : List (String × Json) → String → Option Json
  | [], _ => none
  | (k, v) :: rest, key => if k = key then some v else lookupField rest key

/-- `d.get(key, default)` on an actual dict, given by its field list. -/
def getDefault (fields : List (String × Json)) (key : String) (dflt : Json) : Json :=
  (lookupField fields key).getD dflt

/-- A Python exception raised during per-file processing. -/
inductive PyError where
  | attributeErr : String → PyError
  | typeErr : String → PyError
  | osErr : String → PyError

/-- `v.get(key, default)` where `v` is an arbitrary value: only dicts have a
`get` attribute, every other value raises `AttributeError` (this is how
lines 44 and 75-76 of the script can fail). -/
def attrGet (v : Json) (key : String) (dflt : Json) : Except PyError Json :=
  match v with
  | Json.obj fields => Except.ok (getDefault fields key dflt)
  | _ => Except.error (PyError.attributeErr ("object has no attribute " ++ squote ++ "get" ++ squote))

/-- `v.pop(key, None)` where `v` is an arbitrary value: on a dict it removes
the binding of `key` (no error if absent); a list's `pop` takes an integer
index (`TypeError`); other values have no `pop` attribute
(`AttributeError`). -/
def popKey (key : String) (v : Json) : Except PyError Json :=
  match v with
  | Json.obj fields => Except.ok (Json.obj (fields.filter (fun p => p.1 ≠ key)))
  | Json.arr _ => Except.error (PyError.typeErr "pop expected at most 1 argument, got 2")
  | _ => Except.error (PyError.attributeErr ("object has no attribute " ++ squote ++ "pop" ++ squote))

/-- Lines 58-60 / 62-64: pop `keywords`, `codes` and `id` from one entry. -/
def stripEntry (v : Json) : Except PyError Json :=
  match popKey "keywords" v with
  | Except.error e => Except.error e
  | Except.ok v1 =>
    match popKey "codes" v1 with
    | Except.error e => Except.error e
    | Except.ok v2 => popKey "id" v2

/-- The loops of lines 57-64: strip every entry of a list in order, stopping
at the first exception. -/
def stripAll : List Json → Except PyError (List Json)
  | [] => Except.ok []
  | x :: xs =>
    match stripEntry x with
    | Except.error e => Except.error e
    | Except.ok y =>
      match stripAll xs with
      | Except.error e => Except.error e
      | Except.ok ys => Except.ok (y :: ys)

/-- Lines 75-76 and the joins of line 82: `t.get('name', 'N/A')` for each
entry, then `', '.join(...)` which raises `TypeError` on a non-string
item. -/
def namesOf : List Json → Except PyError (List String)
  | [] => Except.ok []
  | t :: ts =>
    match attrGet t "name" (Json.str "N/A") with
    | Except.error e => Except.error e
    | Except.ok v =>
      match v with
      | Json.str s =>
        match namesOf ts with
        | Except.error e => Except.error e
        | Except.ok ss => Except.ok (s :: ss)
      | _ => Except.error (PyError.typeErr "sequence item: expected str instance")

/-- Python `', '.join(...)` on a list of strings. -/
def joinComma : List String → String
  | [] => ""
  | [s] => s
  | s :: rest => s ++ ", " ++ joinComma rest

/-- Index of the last occurrence of a character in a list. -/
def lastIdxOf (c : Char) : List Char → Option Nat
  | [] => none
  | x :: xs =>
    match lastIdxOf c xs with
    | some i => some (i + 1)
    | none => if x = c then some 0 else none

/-- The stem of `os.path.splitext(base)` for a base filename: cut at the last
dot, unless every character before it is a dot (so `.json` keeps its name). -/
def splitextStem (s : String) : String :=
  let cs := s.toList
  match lastIdxOf '.' cs with
  | none => s
  | some i => if (cs.take i).all (fun c => c = '.') then s else String.mk (cs.take i)

/-- Line 51 / 54 warning text. -/
def warnMsg (base fieldName : String) : String :=
  "Warning: " ++ squote ++ fieldName ++ squote ++ " in " ++ base ++ " is not a list. Using empty list."

/-- Lines 50-55: coerce `treatments`/`indications` to a list, emitting a
warning when the value is present but not a list. -/
def coerceList (base fieldName : String) (v : Json) : List String × List Json :=
  match v with
  | Json.arr xs => ([], xs)
  | _ => ([warnMsg base fieldName], [])

/-- The record built at lines 67-72 (`extracted_info`). -/
structure ExtractedRecord where
  policyTitle : Json
  sourceFilename : String
  treatments : List Json
  indications : List Json

/-- A successfully processed file: its record and its compact summary line. -/
structure Processed where
  record : ExtractedRecord
  line : String

/-- Line 82: the compact summary string. -/
def mkLine (base : String) (title : Json) (tNames iNames : List String) : String :=
  splitextStem base ++ ": " ++ pyStr title ++ " Treatments: [" ++ joinComma tNames ++
    "]; Indications: [" ++ joinComma iNames ++ "]"

/-- Lines 57-86 after the list coercions: strip both entry lists, compute the
names, and build the record and compact line. -/
def finishFile (base : String) (title : Json) (tRaw iRaw : List Json) : Except PyError Processed :=
  match stripAll tRaw with
  | Except.error e => Except.error e
  | Except.ok tS =>
    match stripAll iRaw with
    | Except.error e => Except.error e
    | Except.ok iS =>
      match namesOf tS with
      | Except.error e => Except.error e
      | Except.ok tN =>
        match namesOf iS with
        | Except.error e => Except.error e
        | Except.ok iN =>
          Except.ok ⟨⟨title, base, tS, iS⟩, mkLine base title tN iN⟩

/-- Lines 43-86 for a file whose root parsed to a dict: extract the title
(line 44 raises `AttributeError` when `policyMetadata` is present but not a
dict, before any warning is printed), coerce the two entry lists (emitting
warnings), then strip, name and format.  Returns the warnings printed for
this file together with the outcome. -/
def processObject (base : String) (fields : List (String × Json)) :
    List String × Except PyError Processed :=
  match attrGet (getDefault fields "policyMetadata" (Json.obj [])) "policyTitle" (Json.str "N/A") with
  | Except.error e => ([], Except.error e)
  | Except.ok title =>
    ((coerceList base "treatments" (getDefault fields "treatments" (Json.arr []))).1 ++
       (coerceList base "indications" (getDefault fields "indications" (Json.arr []))).1,
     finishFile base title
       (coerceList base "treatments" (getDefault fields "treatments" (Json.arr []))).2
       (coerceList base "indications" (getDefault fields "indications" (Json.arr []))).2)

/-- What reading and JSON-parsing one discovered file yields: a parsed value,
a `json.JSONDecodeError`, a `FileNotFoundError`, or some other I/O error. -/
inductive ReadResult where
  | parsed : Json → ReadResult
  | invalidJson : String → ReadResult
  | notFound : ReadResult
  | readErr : String → ReadResult

/-- One discovered input file: its base filename and what reading it yields. -/
structure FileInput where
  name : String
  content : ReadResult

/-- Why a file was skipped, mirroring the four skip paths of lines 36-39 and
88-96. -/
inductive SkipReason where
  | invalidJson : String → SkipReason
  | fileNotFound : SkipReason
  | rootNotObject : SkipReason
  | unexpected : PyError → SkipReason

/-- Lines 29-96: process one discovered file.  Returns the warnings printed
for it and either a skip reason (the file contributes nothing) or the
processed record and compact line. -/
def processFile (f : FileInput) : List String × Except SkipReason Processed :=
  match f.content with
  | ReadResult.parsed v =>
    match v with
    | Json.obj fields =>
      match processObject f.name fields with
      | (ws, Except.error e) => (ws, Except.error (SkipReason.unexpected e))
      | (ws, Except.ok p) => (ws, Except.ok p)
    | _ => ([], Except.error SkipReason.rootNotObject)
  | ReadResult.invalidJson m => ([], Except.error (SkipReason.invalidJson m))
  | ReadResult.notFound => ([], Except.error SkipReason.fileNotFound)
  | ReadResult.readErr m => ([], Except.error (SkipReason.unexpected (PyError.osErr m)))

/-- The compact line a file contributes, if it is successfully processed. -/
def lineOf (f : FileInput) : Option String :=
  match (processFile f).2 with
  | Except.ok p => some p.line
  | Except.error _ => none

/-- The main loop of lines 25-98 restricted to its effect on
`all_extracted_data`: append the compact line of every successfully
processed file, in discovery order. -/
def gatherLines : List FileInput → List String → List String
  | [], acc => acc
  | f :: fs, acc =>
    match (processFile f).2 with
    | Except.ok p => gatherLines fs (acc ++ [p.line])
    | Except.error _ => gatherLines fs acc

/-- Lines 109-110: the text written to the output file, each collected line
followed by a newline. -/
def renderOutput : List String → String
  | [] => ""
  | l :: rest => l ++ "\n" ++ renderOutput rest

/-- Line 7 constant. -/
def source_directory : String := "premera_policies_abstracted"

/-- Line 10 constant (`os.path.join` with the POSIX separator). -/
def file_pattern : String := source_directory ++ "/*.json"

/-- Line 106 constant. -/
def output_filename : String := "policies_compact.txt"

/-- Line 17 message. -/
def noFilesText : String := "No files found matching pattern: " ++ file_pattern

/-- What the operating system provides when the source directory is
iterated: its matching entries, or an OS error (directory missing or
unreadable). -/
inductive DirListing where
  | entries : List FileInput → DirListing
  | osError : String → DirListing

/-- Line 14, `glob.glob(file_pattern)`: CPython's glob iterates the
directory inside a `try`/`except OSError` that swallows the error, so a
missing or unreadable source directory produces an empty match list rather
than an exception. -/
def globMatches : DirListing → List FileInput
  | DirListing.entries fs => fs
  | DirListing.osError _ => []

/-- A condition that terminates the run as a whole: lines 105-110 install
no handler around opening the output file, so an exception from that open
propagates out of the script.  (Directory discovery has no fatal path:
`glob.glob` swallows OS errors, see `globMatches`.) -/
inductive FatalError where
  | outputWrite : String → FatalError

/-- The observable outcome of a successful run: the no-files message if it
was printed, the collected compact lines, and the content written to
`policies_compact.txt` (none when no file is written). -/
structure RunOutcome where
  noFilesLine : Option String
  lines : List String
  output : Option String

/-- The whole script, lines 13-111.  The environment supplies what the OS
reports for the source directory (entries or an OS error, which `glob`
converts to zero matches) and whether the output file can be opened for
writing.  With zero matches the script prints the no-files message and
exits successfully; otherwise it processes every file, and writes the
collected lines only when at least one file was successfully processed
(only that write can fail fatally). -/
def runScript (dir : DirListing) (outputWritable : Bool) :
    Except FatalError RunOutcome :=
  if (globMatches dir).isEmpty then
    Except.ok ⟨some noFilesText, [], none⟩
  else if (gatherLines (globMatches dir) []).isEmpty then
    Except.ok ⟨none, gatherLines (globMatches dir) [], none⟩
  else if outputWritable then
    Except.ok ⟨none, gatherLines (globMatches dir) [],
      some (renderOutput (gatherLines (globMatches dir) []))⟩
  else
    Except.error (FatalError.outputWrite "could not open output file for writing")

/-- Whether a parsed value is a dict containing a binding for `key`. -/
def hasKey (v : Json) (key : String) : Bool :=
  match v with
  | Json.obj fields => fields.any (fun p => p.1 = key)
  | _ => false

/-- Number of discovered files that are successfully processed. -/
def processedCount (files : List FileInput) : Nat :=
  files.countP (fun f => (processFile f).2.isOk)

/-- Number of discovered files that are skipped with a diagnostic. -/
def skippedCount (files : List FileInput) : Nat :=
  files.countP (fun f => !(processFile f).2.isOk)

/-- Replace the value bound to a key in a dict's field list (the dict with
that field's value changed, all other fields untouched). -/
def setField : List (String × Json) → String → Json → List (String × Json)
  | [], _, _ => []
  | (k, w) :: rest, key, v =>
    if k = key then (k, v) :: setField rest key v else (k, w) :: setField rest key v

/-! ### General lemmas about the main loop -/

theorem gatherLines_eq (files : List FileInput) : ∀ acc : List String,
    gatherLines files acc = acc ++ files.filterMap lineOf := by
  induction files with
  | nil => intro acc; simp [gatherLines]
  | cons f fs ih =>
    intro acc
    simp only [gatherLines, List.filterMap_cons, lineOf]
    cases h : (processFile f).2 with
    | ok p => simp [h, ih]
    | error e => simp [h, ih]

theorem string_join_cons (a : String) (l : List String) :
    String.join (a :: l) = a ++ String.join l := by
  simp [String.join_eq]
  rfl

theorem renderOutput_eq_join : ∀ ls : List String,
    renderOutput ls = String.join (ls.map (fun l => l ++ "\n"))
  | [] => rfl
  | l :: rest => by
    rw [renderOutput, List.map_cons, string_join_cons, renderOutput_eq_join rest,
      String.append_assoc]

/-- C2: the sample input from the spec, in file `sample.json`, produces
exactly the compact line
`sample: Test Policy Treatments: [Surgery]; Indications: [Diabetes]`. -/
theorem c2_sample_compact_line :
    lineOf ⟨"sample.json", ReadResult.parsed (Json.obj
      [("policyMetadata", Json.obj [("policyTitle", Json.str "Test Policy")]),
       ("treatments", Json.arr [Json.obj [("name", Json.str "Surgery"), ("id", Json.str "X1")]]),
       ("indications", Json.arr [Json.obj [("name", Json.str "Diabetes")]])])⟩ =
    some "sample: Test Policy Treatments: [Surgery]; Indications: [Diabetes]" := by
  rfl

/-- C4: every discovered file has exactly one outcome — skipped with a
diagnostic or successfully processed — so the skipped count plus the
processed count equals the number of discovered files. -/
theorem c4_outcome_partition : ∀ files : List FileInput,
    skippedCount files + processedCount files = files.length := by
  intro files
  induction files with
  | nil => rfl
  | cons f fs ih =>
    simp only [skippedCount, processedCount, List.countP_cons, List.length_cons] at *
    cases h : (processFile f).2 <;> simp [Except.isOk, Except.toBool] at ih ⊢ <;> omega

/-- C8: with zero matching files the run prints the no-files message,
terminates successfully, and writes no output file. -/
theorem c8_zero_matches : ∀ w : Bool,
    runScript (DirListing.entries []) w = Except.ok ⟨some noFilesText, [], none⟩ := by
  intro w
  rfl

/-- C1 counterexample: with the OS reporting the source directory missing,
`glob` swallows the error and yields zero matches, so the run terminates
successfully through the no-files path — not as a fatal discovery error, as
the claim states. -/
theorem c1_counterexample :
    runScript (DirListing.osError "No such file or directory") true =
      Except.ok ⟨some noFilesText, [], none⟩ ∧
    (runScript (DirListing.osError "No such file or directory") true).isOk = true :=
  ⟨rfl, rfl⟩

/-- C1 (amended): a missing or unreadable source directory yields zero glob
matches, so the run terminates immediately and successfully via the
no-files path with no output written; for every run the only fatal
condition is the output file failing to open for writing after all files
have been processed, which can arise only when at least one summary line
was collected. -/
theorem c1_fatal_conditions :
    (∀ (m : String) (w : Bool),
      runScript (DirListing.osError m) w = Except.ok ⟨some noFilesText, [], none⟩) ∧
    (∀ (dir : DirListing) (w : Bool),
      (∃ e, runScript dir w = Except.error e) ↔
        (gatherLines (globMatches dir) [] ≠ [] ∧ w = false)) := by
  constructor
  · intro m w; rfl
  · intro dir w
    constructor
    · rintro ⟨e, he⟩
      by_cases hf : (globMatches dir).isEmpty
      · simp [runScript, hf] at he
      · by_cases hl : (gatherLines (globMatches dir) []).isEmpty
        · simp [runScript, hf, hl] at he
        · cases w with
          | false => exact ⟨by simpa using hl, rfl⟩
          | true => simp [runScript, hf, hl] at he
    · rintro ⟨hne, hw⟩
      subst hw
      have hf : (globMatches dir).isEmpty = false := by
        cases hg : globMatches dir with
        | nil => rw [hg] at hne; simp [gatherLines] at hne
        | cons a l => rfl
      exact ⟨FatalError.outputWrite "could not open output file for writing",
        by simp [runScript, hf, hne]⟩

/-- C3: with a writable output destination the run produces exactly one
compact summary line per successfully processed file, each terminated by a
newline, in discovery order, the written content being the entire file
content (mode `w` truncates any previous file); when no file is
successfully processed, nothing is written. -/
theorem c3_output_file_contents :
    ∀ files : List FileInput,
      runScript (DirListing.entries files) true =
        Except.ok ⟨if files.isEmpty then some noFilesText else none,
                   files.filterMap lineOf,
                   if files.filterMap lineOf = [] then none
                   else some (String.join ((files.filterMap lineOf).map (fun l => l ++ "\n")))⟩ := by
  intro files
  cases files with
  | nil => rfl
  | cons f fs =>
    have hg := gatherLines_eq (f :: fs) []
    simp only [List.nil_append] at hg
    by_cases hl : (f :: fs).filterMap lineOf = []
    · simp [runScript, globMatches, hg, hl]
    · simp [runScript, globMatches, hg, hl, renderOutput_eq_join]

/-- C5: a file whose parsed JSON root is not an object (an array, string,
number, boolean or null) is skipped with a diagnostic, gets no summary
line, and contributes nothing to the collected output lines. -/
theorem c5_nonobject_root_skipped :
    ∀ (f : FileInput) (v : Json), f.content = ReadResult.parsed v → v.isObj = false →
      processFile f = ([], Except.error SkipReason.rootNotObject) ∧
      lineOf f = none ∧
      ∀ pre suf : List FileInput,
        gatherLines (pre ++ f :: suf) [] = gatherLines (pre ++ suf) [] := by
  intro f v hc hv
  have hpf : processFile f = ([], Except.error SkipReason.rootNotObject) := by
    cases f with
    | mk name content =>
      cases hc
      cases v <;> simp [Json.isObj] at hv <;> rfl
  refine ⟨hpf, ?_, ?_⟩
  · simp [lineOf, hpf]
  · intro pre suf
    rw [gatherLines_eq, gatherLines_eq]
    simp [List.filterMap_append, List.filterMap_cons, lineOf, hpf]

/-- Witness for C5 at a concrete array-rooted file. -/
theorem c5_witness :
    processFile ⟨"arr.json", ReadResult.parsed (Json.arr [])⟩ =
      ([], Except.error SkipReason.rootNotObject) :=
  (c5_nonobject_root_skipped ⟨"arr.json", ReadResult.parsed (Json.arr [])⟩
    (Json.arr []) rfl rfl).1

/-! ### Lemmas about field stripping -/

theorem stripEntry_obj (fields : List (String × Json)) :
    stripEntry (Json.obj fields) =
      Except.ok (Json.obj (((fields.filter (fun p => p.1 ≠ "keywords")).filter
        (fun p => p.1 ≠ "codes")).filter (fun p => p.1 ≠ "id"))) := rfl

theorem stripEntry_not_obj (v : Json) (h : v.isObj = false) :
    ∃ e, stripEntry v = Except.error e := by
  cases v <;> simp [Json.isObj] at h <;> exact ⟨_, rfl⟩

theorem mem_triple_filter {fields : List (String × Json)} {p : String × Json}
    (hp : p ∈ ((fields.filter (fun q => q.1 ≠ "keywords")).filter
        (fun q => q.1 ≠ "codes")).filter (fun q => q.1 ≠ "id")) :
    p.1 ≠ "keywords" ∧ p.1 ≠ "codes" ∧ p.1 ≠ "id" := by
  simp [List.mem_filter] at hp
  tauto

theorem stripEntry_ok_no_keys (v w : Json) (h : stripEntry v = Except.ok w) :
    hasKey w "keywords" = false ∧ hasKey w "codes" = false ∧ hasKey w "id" = false := by
  cases v with
  | obj fields =>
    rw [stripEntry_obj] at h
    cases h
    refine ⟨?_, ?_, ?_⟩ <;>
      · simp only [hasKey, List.any_eq_false]
        intro p hp
        have := mem_triple_filter hp
        simp
        tauto
  | arr l => exact absurd h (by simp [stripEntry, popKey])
  | str s => exact absurd h (by simp [stripEntry, popKey])
  | num n => exact absurd h (by simp [stripEntry, popKey])
  | bool b => exact absurd h (by simp [stripEntry, popKey])
  | null => exact absurd h (by simp [stripEntry, popKey])

theorem stripEntry_idem (v w : Json) (h : stripEntry v = Except.ok w) :
    stripEntry w = Except.ok w := by
  cases v with
  | obj fields =>
    rw [stripEntry_obj] at h
    cases h
    rw [stripEntry_obj]
    congr 2
    rw [List.filter_eq_self.mpr, List.filter_eq_self.mpr, List.filter_eq_self.mpr]
    · intro a ha
      have := mem_triple_filter ha
      simp
      tauto
    · intro a ha
      rw [List.filter_eq_self.mpr] at ha
      · have := mem_triple_filter ha
        simp
        tauto
      · intro b hb
        have := mem_triple_filter hb
        simp
        tauto
    · intro a ha
      rw [List.filter_eq_self.mpr, List.filter_eq_self.mpr] at ha
      · have := mem_triple_filter ha
        simp
        tauto
      · intro b hb
        have := mem_triple_filter hb
        simp
        tauto
      · intro b hb
        rw [List.filter_eq_self.mpr] at hb
        · have := mem_triple_filter hb
          simp
          tauto
        · intro c hc
          have := mem_triple_filter hc
          simp
          tauto
  | arr l => exact absurd h (by simp [stripEntry, popKey])
  | str s => exact absurd h (by simp [stripEntry, popKey])
  | num n => exact absurd h (by simp [stripEntry, popKey])
  | bool b => exact absurd h (by simp [stripEntry, popKey])
  | null => exact absurd h (by simp [stripEntry, popKey])

theorem stripAll_ok_entries : ∀ (xs ys : List Json), stripAll xs = Except.ok ys →
    ∀ y ∈ ys, ∃ x, stripEntry x = Except.ok y := by
  intro xs
  induction xs with
  | nil =>
    intro ys h y hy
    cases h
    cases hy
  | cons x xs ih =>
    intro ys h y hy
    simp only [stripAll] at h
    cases hx : stripEntry x with
    | error e => rw [hx] at h; cases h
    | ok y0 =>
      rw [hx] at h
      cases hxs : stripAll xs with
      | error e => rw [hxs] at h; cases h
      | ok ys0 =>
        rw [hxs] at h
        cases h
        rcases List.mem_cons.mp hy with rfl | hy2
        · exact ⟨x, hx⟩
        · exact ih ys0 hxs y hy2

theorem stripAll_error_of_bad_entry : ∀ (xs : List Json) (x : Json),
    x ∈ xs → x.isObj = false → ∃ e, stripAll xs = Except.error e := by
  intro xs
  induction xs with
  | nil => intro x hx _; cases hx
  | cons a xs ih =>
    intro x hx hv
    rcases List.mem_cons.mp hx with rfl | hx2
    · obtain ⟨e, he⟩ := stripEntry_not_obj x hv
      exact ⟨e, by simp [stripAll, he]⟩
    · cases ha : stripEntry a with
      | error e => exact ⟨e, by simp [stripAll, ha]⟩
      | ok y =>
        obtain ⟨e, he⟩ := ih x hx2 hv
        exact ⟨e, by simp [stripAll, ha, he]⟩

/-! ### Inversion lemmas for the per-file pipeline -/

theorem processObject_ok_inv (base : String) (fields : List (String × Json)) (p : Processed)
    (h : (processObject base fields).2 = Except.ok p) :
    stripAll (coerceList base "treatments" (getDefault fields "treatments" (Json.arr []))).2 =
      Except.ok p.record.treatments ∧
    stripAll (coerceList base "indications" (getDefault fields "indications" (Json.arr []))).2 =
      Except.ok p.record.indications := by
  unfold processObject at h
  cases ht : attrGet (getDefault fields "policyMetadata" (Json.obj [])) "policyTitle"
      (Json.str "N/A") with
  | error e => rw [ht] at h; cases h
  | ok title =>
    rw [ht] at h
    simp only at h
    unfold finishFile at h
    cases h1 : stripAll (coerceList base "treatments"
        (getDefault fields "treatments" (Json.arr []))).2 with
    | error e => rw [h1] at h; cases h
    | ok tS =>
      rw [h1] at h
      dsimp only at h
      cases h2 : stripAll (coerceList base "indications"
          (getDefault fields "indications" (Json.arr []))).2 with
      | error e => rw [h2] at h; cases h
      | ok iS =>
        rw [h2] at h
        dsimp only at h
        cases h3 : namesOf tS with
        | error e => rw [h3] at h; cases h
        | ok tN =>
          rw [h3] at h
          dsimp only at h
          cases h4 : namesOf iS with
          | error e => rw [h4] at h; cases h
          | ok iN =>
            rw [h4] at h
            dsimp only at h
            cases h
            exact ⟨rfl, rfl⟩

theorem processFile_ok_inv (f : FileInput) (p : Processed)
    (h : (processFile f).2 = Except.ok p) :
    ∃ fields, f.content = ReadResult.parsed (Json.obj fields) ∧
      (processObject f.name fields).2 = Except.ok p := by
  cases f with
  | mk name content =>
    cases content with
    | parsed v =>
      cases v with
      | obj fields =>
        refine ⟨fields, rfl, ?_⟩
        simp only [processFile] at h
        cases hp : processObject name fields with
        | mk ws r =>
          rw [hp] at h
          cases r with
          | error e => simp at h
          | ok q =>
            simp at h
            simp [h]
      | arr l => simp [processFile] at h
      | str s => simp [processFile] at h
      | num n => simp [processFile] at h
      | bool b => simp [processFile] at h
      | null => simp [processFile] at h
    | invalidJson m => simp [processFile] at h
    | notFound => simp [processFile] at h
    | readErr m => simp [processFile] at h

/-- C6: the record underlying every emitted summary never contains the
`keywords`, `codes` or `id` keys in any treatment or indication entry;
stripping a dict entry succeeds whether or not those keys are present; and
stripping is idempotent — restripping an already-stripped entry changes
nothing. -/
theorem c6_stripped_fields :
    (∀ (f : FileInput) (p : Processed), (processFile f).2 = Except.ok p →
      ∀ e ∈ p.record.treatments ++ p.record.indications,
        hasKey e "keywords" = false ∧ hasKey e "codes" = false ∧ hasKey e "id" = false) ∧
    (∀ fields : List (String × Json), ∃ w, stripEntry (Json.obj fields) = Except.ok w) ∧
    (∀ v w : Json, stripEntry v = Except.ok w → stripEntry w = Except.ok w) := by
  refine ⟨?_, ?_, stripEntry_idem⟩
  · intro f p h e he
    obtain ⟨fields, hc, hpo⟩ := processFile_ok_inv f p h
    obtain ⟨ht, hi⟩ := processObject_ok_inv _ _ _ hpo
    rcases List.mem_append.mp he with he2 | he2
    · obtain ⟨x, hx⟩ := stripAll_ok_entries _ _ ht e he2
      exact stripEntry_ok_no_keys x e hx
    · obtain ⟨x, hx⟩ := stripAll_ok_entries _ _ hi e he2
      exact stripEntry_ok_no_keys x e hx
  · intro fields
    exact ⟨_, stripEntry_obj fields⟩

/-- Witness for C6 at the spec's sample file: the surviving treatment entry
carries none of the stripped keys. -/
theorem c6_witness :
    hasKey (Json.obj [("name", Json.str "Surgery")]) "keywords" = false ∧
    hasKey (Json.obj [("name", Json.str "Surgery")]) "codes" = false ∧
    hasKey (Json.obj [("name", Json.str "Surgery")]) "id" = false :=
  c6_stripped_fields.1
    ⟨"sample.json", ReadResult.parsed (Json.obj
      [("policyMetadata", Json.obj [("policyTitle", Json.str "Test Policy")]),
       ("treatments", Json.arr [Json.obj [("name", Json.str "Surgery"), ("id", Json.str "X1")]]),
       ("indications", Json.arr [Json.obj [("name", Json.str "Diabetes")]])])⟩
    ⟨⟨Json.str "Test Policy", "sample.json",
      [Json.obj [("name", Json.str "Surgery")]],
      [Json.obj [("name", Json.str "Diabetes")]]⟩,
      "sample: Test Policy Treatments: [Surgery]; Indications: [Diabetes]"⟩
    rfl
    (Json.obj [("name", Json.str "Surgery")])
    (List.mem_append_left _ (List.mem_cons_self _ _))

/-! ### Lemmas about setField -/

theorem lookup_setField_self : ∀ (fields : List (String × Json)) (key : String) (v u : Json),
    lookupField fields key = some u → lookupField (setField fields key v) key = some v := by
  intro fields key v
  induction fields with
  | nil => intro u h; cases h
  | cons p fields ih =>
    intro u h
    cases p with
    | mk k w =>
      by_cases hk : k = key
      · subst hk
        simp [setField, lookupField]
      · simp only [lookupField, if_neg hk] at h
        simp only [setField, if_neg hk, lookupField]
        exact ih u h

theorem lookup_setField_other : ∀ (fields : List (String × Json)) (key key' : String) (v : Json),
    key' ≠ key → lookupField (setField fields key v) key' = lookupField fields key' := by
  intro fields key key' v hne
  induction fields with
  | nil => rfl
  | cons p fields ih =>
    cases p with
    | mk k w =>
      by_cases hk : k = key
      · subst hk
        have hkk : ¬ k = key' := fun he => hne he.symm
        simp only [setField, if_pos rfl, lookupField]
        rw [if_neg hkk, if_neg hkk]
        exact ih
      · simp only [setField, if_neg hk, lookupField]
        by_cases hk2 : k = key'
        · rw [if_pos hk2, if_pos hk2]
        · rw [if_neg hk2, if_neg hk2]
          exact ih

/-- C7 (amended): when `policyMetadata` is absent or an object (so title
extraction raises nothing), a `treatments` or `indications` field that is
present but not a list yields the warning naming the file and field, and the
field is treated as an empty list for the remainder of processing: the run
on the original fields equals the run on the fields with that value replaced
by an empty list, with the warning added — so the file is successfully
processed exactly when that remaining processing raises no error.  An absent
field defaults to an empty list and contributes no warning. -/
theorem c7_field_type_warning :
    ∀ (base : String) (fields : List (String × Json)),
      (attrGet (getDefault fields "policyMetadata" (Json.obj [])) "policyTitle"
        (Json.str "N/A")).isOk = true →
      ((∀ v, lookupField fields "treatments" = some v → v.isArr = false →
          processObject base fields =
            (warnMsg base "treatments" ::
               (processObject base (setField fields "treatments" (Json.arr []))).1,
             (processObject base (setField fields "treatments" (Json.arr []))).2)) ∧
       (∀ v, lookupField fields "indications" = some v → v.isArr = false →
          processObject base fields =
            ((processObject base (setField fields "indications" (Json.arr []))).1 ++
               [warnMsg base "indications"],
             (processObject base (setField fields "indications" (Json.arr []))).2)) ∧
       (lookupField fields "treatments" = none →
          (processObject base fields).1 =
            (coerceList base "indications" (getDefault fields "indications" (Json.arr []))).1) ∧
       (lookupField fields "indications" = none →
          (processObject base fields).1 =
            (coerceList base "treatments" (getDefault fields "treatments" (Json.arr []))).1)) := by
  intro base fields hok
  cases hT : attrGet (getDefault fields "policyMetadata" (Json.obj [])) "policyTitle"
      (Json.str "N/A") with
  | error e => rw [hT] at hok; simp [Except.isOk, Except.toBool] at hok
  | ok title =>
    refine ⟨?_, ?_, ?_, ?_⟩
    · intro v hl hv
      have hpm : getDefault (setField fields "treatments" (Json.arr [])) "policyMetadata"
          (Json.obj []) = getDefault fields "policyMetadata" (Json.obj []) := by
        simp [getDefault, lookup_setField_other fields "treatments" "policyMetadata" _ (by decide)]
      have hind : getDefault (setField fields "treatments" (Json.arr [])) "indications"
          (Json.arr []) = getDefault fields "indications" (Json.arr []) := by
        simp [getDefault, lookup_setField_other fields "treatments" "indications" _ (by decide)]
      have htr : getDefault (setField fields "treatments" (Json.arr [])) "treatments"
          (Json.arr []) = Json.arr [] := by
        simp [getDefault, lookup_setField_self fields "treatments" (Json.arr []) v hl]
      have hcv : coerceList base "treatments" (getDefault fields "treatments" (Json.arr [])) =
          ([warnMsg base "treatments"], []) := by
        have hg : getDefault fields "treatments" (Json.arr []) = v := by simp [getDefault, hl]
        rw [hg]
        cases v <;> simp [Json.isArr] at hv <;> rfl
      have e1 : processObject base fields =
          ((coerceList base "treatments" (getDefault fields "treatments" (Json.arr []))).1 ++
             (coerceList base "indications" (getDefault fields "indications" (Json.arr []))).1,
           finishFile base title
             (coerceList base "treatments" (getDefault fields "treatments" (Json.arr []))).2
             (coerceList base "indications" (getDefault fields "indications" (Json.arr []))).2) := by
        unfold processObject
        rw [hT]
      have e2 : processObject base (setField fields "treatments" (Json.arr [])) =
          ((coerceList base "treatments" (Json.arr [])).1 ++
             (coerceList base "indications" (getDefault fields "indications" (Json.arr []))).1,
           finishFile base title
             (coerceList base "treatments" (Json.arr [])).2
             (coerceList base "indications" (getDefault fields "indications" (Json.arr []))).2) := by
        unfold processObject
        rw [hpm, hT, htr, hind]
      rw [e1, e2, hcv]
      simp [coerceList]
    · intro v hl hv
      have hpm : getDefault (setField fields "indications" (Json.arr [])) "policyMetadata"
          (Json.obj []) = getDefault fields "policyMetadata" (Json.obj []) := by
        simp [getDefault, lookup_setField_other fields "indications" "policyMetadata" _ (by decide)]
      have htr : getDefault (setField fields "indications" (Json.arr [])) "treatments"
          (Json.arr []) = getDefault fields "treatments" (Json.arr []) := by
        simp [getDefault, lookup_setField_other fields "indications" "treatments" _ (by decide)]
      have hind : getDefault (setField fields "indications" (Json.arr [])) "indications"
          (Json.arr []) = Json.arr [] := by
        simp [getDefault, lookup_setField_self fields "indications" (Json.arr []) v hl]
      have hcv : coerceList base "indications" (getDefault fields "indications" (Json.arr [])) =
          ([warnMsg base "indications"], []) := by
        have hg : getDefault fields "indications" (Json.arr []) = v := by simp [getDefault, hl]
        rw [hg]
        cases v <;> simp [Json.isArr] at hv <;> rfl
      have e1 : processObject base fields =
          ((coerceList base "treatments" (getDefault fields "treatments" (Json.arr []))).1 ++
             (coerceList base "indications" (getDefault fields "indications" (Json.arr []))).1,
           finishFile base title
             (coerceList base "treatments" (getDefault fields "treatments" (Json.arr []))).2
             (coerceList base "indications" (getDefault fields "indications" (Json.arr []))).2) := by
        unfold processObject
        rw [hT]
      have e2 : processObject base (setField fields "indications" (Json.arr [])) =
          ((coerceList base "treatments" (getDefault fields "treatments" (Json.arr []))).1 ++
             (coerceList base "indications" (Json.arr [])).1,
           finishFile base title
             (coerceList base "treatments" (getDefault fields "treatments" (Json.arr []))).2
             (coerceList base "indications" (Json.arr [])).2) := by
        unfold processObject
        rw [hpm, hT, htr, hind]
      rw [e1, e2, hcv]
      simp [coerceList]
    · intro hl
      have hg : getDefault fields "treatments" (Json.arr []) = Json.arr [] := by
        simp [getDefault, hl]
      simp [processObject, hT, hg, coerceList]
    · intro hl
      have hg : getDefault fields "indications" (Json.arr []) = Json.arr [] := by
        simp [getDefault, hl]
      simp [processObject, hT, hg, coerceList]

/-- C7 counterexample: for the root object with `treatments: 2` and
`indications: [3]`, the `treatments` warning is emitted, but the file is not
successfully processed — the non-dict indication entry makes the per-file
handler skip the whole file — so the claim's unconditional "the file is
still successfully processed" is false. -/
theorem c7_counterexample :
    (processFile ⟨"c7.json", ReadResult.parsed (Json.obj
      [("treatments", Json.num 2), ("indications", Json.arr [Json.num 3])])⟩).1 =
      [warnMsg "c7.json" "treatments"] ∧
    (processFile ⟨"c7.json", ReadResult.parsed (Json.obj
      [("treatments", Json.num 2), ("indications", Json.arr [Json.num 3])])⟩).2.isOk = false :=
  ⟨rfl, rfl⟩

/-- Witness for C7 at a concrete file whose `treatments` field is the string
`"x"`. -/
theorem c7_witness :
    processObject "w7.json" [("treatments", Json.str "x")] =
      (warnMsg "w7.json" "treatments" ::
         (processObject "w7.json"
           (setField [("treatments", Json.str "x")] "treatments" (Json.arr []))).1,
       (processObject "w7.json"
         (setField [("treatments", Json.str "x")] "treatments" (Json.arr []))).2) :=
  (c7_field_type_warning "w7.json" [("treatments", Json.str "x")] rfl).1 (Json.str "x") rfl rfl

theorem processObject_error_of_bad_entry (base : String) (fields : List (String × Json))
    (xs : List Json) (x : Json)
    (hk : lookupField fields "treatments" = some (Json.arr xs) ∨
          lookupField fields "indications" = some (Json.arr xs))
    (hx : x ∈ xs) (hv : x.isObj = false) :
    ∃ e, (processObject base fields).2 = Except.error e := by
  unfold processObject
  cases ht : attrGet (getDefault fields "policyMetadata" (Json.obj [])) "policyTitle"
      (Json.str "N/A") with
  | error e => exact ⟨e, rfl⟩
  | ok title =>
    dsimp only
    unfold finishFile
    obtain ⟨e, he⟩ := stripAll_error_of_bad_entry xs x hx hv
    rcases hk with hl | hl
    · have htR : (coerceList base "treatments"
          (getDefault fields "treatments" (Json.arr []))).2 = xs := by
        simp [coerceList, getDefault, hl]
      rw [htR, he]
      exact ⟨e, rfl⟩
    · have hiR : (coerceList base "indications"
          (getDefault fields "indications" (Json.arr []))).2 = xs := by
        simp [coerceList, getDefault, hl]
      rw [hiR, he]
      cases h1 : stripAll (coerceList base "treatments"
          (getDefault fields "treatments" (Json.arr []))).2 with
      | error e2 => exact ⟨e2, rfl⟩
      | ok tS => exact ⟨e, rfl⟩

/-- C9: a file whose `treatments` or `indications` list contains a non-dict
entry is skipped whole with an unexpected-error diagnostic — it contributes
no summary line, so its processing is atomic — and the run continues with
the remaining files. -/
theorem c9_bad_entry_atomic :
    ∀ (f : FileInput) (fields : List (String × Json)) (xs : List Json) (x : Json),
      f.content = ReadResult.parsed (Json.obj fields) →
      (lookupField fields "treatments" = some (Json.arr xs) ∨
       lookupField fields "indications" = some (Json.arr xs)) →
      x ∈ xs → x.isObj = false →
      (∃ e, (processFile f).2 = Except.error (SkipReason.unexpected e)) ∧
      lineOf f = none ∧
      (∀ (rest : List FileInput) (acc : List String),
        gatherLines (f :: rest) acc = gatherLines rest acc) := by
  intro f fields xs x hc hk hx hv
  obtain ⟨e, he⟩ := processObject_error_of_bad_entry f.name fields xs x hk hx hv
  have hpf : (processFile f).2 = Except.error (SkipReason.unexpected e) := by
    cases f with
    | mk name content =>
      cases hc
      simp only [processFile]
      cases hp : processObject name fields with
      | mk ws r =>
        simp only at he
        rw [hp] at he
        dsimp only at he
        cases r with
        | error e2 =>
          cases he
          rfl
        | ok q => cases he
  refine ⟨⟨e, hpf⟩, ?_, ?_⟩
  · simp [lineOf, hpf]
  · intro rest acc
    simp [gatherLines, hpf]

/-- Witness for C9 at a file whose single treatment entry is the string
`"x"`. -/
theorem c9_witness :
    (∃ e, (processFile ⟨"c9.json", ReadResult.parsed (Json.obj
        [("treatments", Json.arr [Json.str "x"])])⟩).2 =
      Except.error (SkipReason.unexpected e)) ∧
    lineOf ⟨"c9.json", ReadResult.parsed (Json.obj
        [("treatments", Json.arr [Json.str "x"])])⟩ = none ∧
    gatherLines [⟨"c9.json", ReadResult.parsed (Json.obj
        [("treatments", Json.arr [Json.str "x"])])⟩] [] = gatherLines [] [] := by
  have h := c9_bad_entry_atomic
    ⟨"c9.json", ReadResult.parsed (Json.obj [("treatments", Json.arr [Json.str "x"])])⟩
    [("treatments", Json.arr [Json.str "x"])] [Json.str "x"] (Json.str "x")
    rfl (Or.inl rfl) (List.mem_cons_self _ _) rfl
  exact ⟨h.1, h.2.1, h.2.2 [] []⟩

/-- C10: a file whose `policyMetadata` field is present but not a dict is
skipped whole by the generic per-file handler — the title is not defaulted
and no summary line is produced (and, that error arising before the list
warnings, no warning is printed either); only an absent `policyMetadata`
yields the empty-mapping default and hence the `N/A` title. -/
theorem c10_policy_metadata_type :
    (∀ (f : FileInput) (fields : List (String × Json)) (v : Json),
      f.content = ReadResult.parsed (Json.obj fields) →
      lookupField fields "policyMetadata" = some v → v.isObj = false →
      processFile f = ([], Except.error (SkipReason.unexpected
        (PyError.attributeErr ("object has no attribute " ++ squote ++ "get" ++ squote)))) ∧
      lineOf f = none) ∧
    (∀ fields : List (String × Json),
      lookupField fields "policyMetadata" = none →
      attrGet (getDefault fields "policyMetadata" (Json.obj [])) "policyTitle" (Json.str "N/A") =
        Except.ok (Json.str "N/A")) := by
  constructor
  · intro f fields v hc hl hv
    have hag : attrGet (getDefault fields "policyMetadata" (Json.obj [])) "policyTitle"
        (Json.str "N/A") = Except.error (PyError.attributeErr
          ("object has no attribute " ++ squote ++ "get" ++ squote)) := by
      have hg : getDefault fields "policyMetadata" (Json.obj []) = v := by
        simp [getDefault, hl]
      rw [hg]
      cases v <;> simp [Json.isObj] at hv <;> rfl
    have hpo : processObject f.name fields = ([], Except.error (PyError.attributeErr
        ("object has no attribute " ++ squote ++ "get" ++ squote))) := by
      unfold processObject
      rw [hag]
    have hpf : processFile f = ([], Except.error (SkipReason.unexpected
        (PyError.attributeErr ("object has no attribute " ++ squote ++ "get" ++ squote)))) := by
      cases f with
      | mk name content =>
        cases hc
        simp only [processFile]
        rw [hpo]
    exact ⟨hpf, by simp [lineOf, hpf]⟩
  · intro fields hl
    simp [attrGet, getDefault, hl, lookupField]

/-- Witness for C10: a string-valued `policyMetadata` skips the file, and an
absent one yields the `N/A` title. -/
theorem c10_witness :
    processFile ⟨"m.json", ReadResult.parsed (Json.obj [("policyMetadata", Json.str "t")])⟩ =
      ([], Except.error (SkipReason.unexpected (PyError.attributeErr
        ("object has no attribute " ++ squote ++ "get" ++ squote)))) ∧
    attrGet (getDefault [] "policyMetadata" (Json.obj [])) "policyTitle" (Json.str "N/A") =
      Except.ok (Json.str "N/A") :=
  ⟨(c10_policy_metadata_type.1
      ⟨"m.json", ReadResult.parsed (Json.obj [("policyMetadata", Json.str "t")])⟩
      [("policyMetadata", Json.str "t")] (Json.str "t") rfl rfl rfl).1,
   c10_policy_metadata_type.2 [] rfl⟩
